import Mathlib

/- Shallow embedding of the body-installation geometry core:
   the rectangle-placement engine of src/unnamed/part_003 (the
   imagePlacement section: PLACEMENT_CONFIG, placeImagesInBodyOutline,
   generateImageBasedRectangleSet, generateFallbackRectangleSet,
   isRectanglePlacementValid, analyzeShapeGeometry, sampleInteriorSpace,
   isPointInsideShape, calculateLocalSpaceAvailability,
   placeRectanglesIteratively, isRectangleInsideShape,
   hasRectangleCollision, maintainsMinimumSpacing, optimizePlacement,
   identifySpaceClusters, estimateShapeArea) and the contour-extraction
   pipeline of src/edgeDetection.js (extractEdgesFromMaskData,
   extractEdgesFromMask, detectEdgePixelsFromArray, extractContours,
   traceContour, smoothContours, filterContours).

   Modelling conventions:
   * JavaScript numbers are elements of a linear ordered field `α`.
     Claims about the computable pipeline are stated at `α := ℚ` (exact
     arithmetic; JavaScript float literals such as 0.9 or 0.45 are read
     as the exact rationals 9/10 and 45/100); the optimizer frame claim
     is stated at `α := ℝ`, where `Math.sqrt` is `Real.sqrt`.
   * Comparisons of the form `Math.sqrt s < t` with s, t ≥ 0 are embedded
     as `s < t * t`, their exact-real equivalent (the square root is
     monotone and both sides are nonnegative); this happens in
     `maintainsMinimumSpacing` (threshold 8) and in
     `detectEdgePixelsFromArray` (threshold 500).  The square root inside
     `optimizePlacement` feeds a quotient, not just a comparison, so
     there the function `sqrtFn : α → α` is kept as a parameter
     (instantiated with `Real.sqrt` at `α := ℝ`).
   * Every `Math.random()`-driven choice is an oracle stream `ℕ → ℕ`
     reduced modulo the length of the list being indexed, so each
     concrete run of the JavaScript corresponds to some oracle and each
     oracle to a possible run.
   * `Array.prototype.sort` (stable in JavaScript) is modelled by a
     stable insertion sort `sortDesc` on the comparator key. -/

namespace BodyPack

/-- Image-space point `{x, y}`. -/
structure Pt (α : Type) where
  x : α
  y : α
deriving DecidableEq, Repr

/-- A loaded image: only its natural pixel dimensions matter to the engine. -/
structure Img (α : Type) where
  width : α
  height : α
deriving DecidableEq, Repr

/-- Bounding box record returned by `calculateBoundingBox`. -/
structure Bounds (α : Type) where
  x : α
  y : α
  width : α
  height : α
deriving DecidableEq, Repr

/-- A sampled interior point `{x, y, localSpace}`. -/
structure SpacePoint (α : Type) where
  x : α
  y : α
  localSpace : α
deriving DecidableEq, Repr

/-- A rectangle specification produced by the spec generators.  The
`originalImageWidth`/`originalImageHeight` fields are set only in the
image-based branch (they are absent, i.e. `undefined`, on fallback
specs) and are never read downstream. -/
structure RectSpec (α : Type) where
  width : α
  height : α
  aspectRatio : α
  assignedImage : Option (Img α)
  priority : α
  originalImageWidth : Option α
  originalImageHeight : Option α
deriving DecidableEq, Repr

/-- A placed rectangle as built by `placeRectanglesIteratively`. -/
structure Rect (α : Type) where
  x : α
  y : α
  width : α
  height : α
  centerX : α
  centerY : α
  assignedImage : Option (Img α)
  aspectRatio : α
deriving DecidableEq, Repr

/-- The record returned by `analyzeShapeGeometry`. -/
structure ShapeInfo (α : Type) where
  bounds : Bounds α
  validPoints : List (SpacePoint α)
  spaceMap : List (SpacePoint α)
  spaceClusters : List (SpacePoint α)
  contours : List (List (Pt α))
  totalArea : α
deriving DecidableEq, Repr

/-- The `PLACEMENT_CONFIG` constant of part_003 (`maxAttempts` is a loop
counter and stays a natural number). -/
structure PlacementConfig (α : Type) where
  minImageSize : α
  maxImageSize : α
  minSpacing : α
  maxAttempts : ℕ
  sampleDensity : α

/-- `PLACEMENT_CONFIG = {minImageSize: 80, maxImageSize: 320, minSpacing: 8,
maxAttempts: 50, sampleDensity: 10}`. -/
def PLACEMENT_CONFIG {α : Type} [LinearOrderedField α] : PlacementConfig α :=
  ⟨80, 320, 8, 50, 10⟩

section Geometry

variable {α : Type} [LinearOrderedField α]

/-- One iteration of the ray-casting loop in `isPointInsideShape`: does the
edge from `c` to `n` cross the rightward ray from the test point? -/
def edgeCrosses (testX testY : α) (c n : Pt α) : Bool :=
  (decide (c.y > testY) != decide (n.y > testY)) &&
    decide (testX < (n.x - c.x) * (testY - c.y) / (n.y - c.y) + c.x)

/-- The crossing count of `isPointInsideShape`: edges join consecutive
vertices, and the last vertex wraps around to `first`. -/
def countCrossings (testX testY : α) (first : Pt α) : List (Pt α) → ℕ
  | [] => 0
  | [c] => if edgeCrosses testX testY c first then 1 else 0
  | c :: n :: rest =>
    (if edgeCrosses testX testY c n then 1 else 0) + countCrossings testX testY first (n :: rest)

/-- `isPointInsideShape(testX, testY, contours)`: ray-casting parity test
against the main (longest, by `reduce` keeping the strictly longer) contour.
An empty contour list, or a main contour with no points, yields `false`. -/
def isPointInsideShape (testX testY : α) (contours : List (List (Pt α))) : Bool :=
  match contours with
  | [] => false
  | c0 :: rest =>
    let mainContour :=
      rest.foldl (fun largest current =>
        if largest.length < current.length then current else largest) c0
    match mainContour with
    | [] => false
    | p :: ps => countCrossings testX testY p (p :: ps) % 2 == 1

/-- `calculateBoundingBox(contours)`.  The JavaScript folds `Math.min`/`Math.max`
starting from `±Infinity`; with no points it returns an infinite box, which
makes every downstream loop over the box run zero times.  We return the
all-zero box in that case, which has the same observable effect (no grid
samples, area 0). -/
def calculateBoundingBox (contours : List (List (Pt α))) : Bounds α :=
  match contours.flatten with
  | [] => ⟨0, 0, 0, 0⟩
  | p :: ps =>
    let minX := ps.foldl (fun m q => min m q.x) p.x
    let minY := ps.foldl (fun m q => min m q.y) p.y
    let maxX := ps.foldl (fun m q => max m q.x) p.x
    let maxY := ps.foldl (fun m q => max m q.y) p.y
    ⟨minX, minY, maxX - minX, maxY - minY⟩

end Geometry

section Sampling

variable {α : Type} [LinearOrderedField α] [FloorRing α]

/-- Number of iterations of `for (v = lo; v < lo + span; v += step)`:
the values are `lo + step*k` for `0 ≤ k < ⌈span/step⌉`. -/
def gridSteps (span step : α) : ℕ :=
  if span ≤ 0 then 0 else (Int.ceil (span / step)).toNat

/-- `sampleInteriorSpace(contours, bounds)`: grid points of the bounding box
(step `PLACEMENT_CONFIG.sampleDensity = 10`, y outer loop, x inner loop)
that pass the inside test, each with `localSpace: 0`. -/
def sampleInteriorSpace (contours : List (List (Pt α))) (bounds : Bounds α) :
    List (SpacePoint α) :=
  ((List.range (gridSteps bounds.height (PLACEMENT_CONFIG (α := α)).sampleDensity)).map (fun j =>
    (List.range (gridSteps bounds.width (PLACEMENT_CONFIG (α := α)).sampleDensity)).filterMap (fun i =>
      let x := bounds.x + (PLACEMENT_CONFIG (α := α)).sampleDensity * (i : α)
      let y := bounds.y + (PLACEMENT_CONFIG (α := α)).sampleDensity * (j : α)
      if isPointInsideShape x y contours then some ⟨x, y, 0⟩ else none))).flatten

/-- The inner `while (distance < 100 && isPointInsideShape(...))` loop of
`calculateLocalSpaceAvailability`.  The distance grows by 2 each pass, so
50 iterations reach the cap: fuel 51 is never exhausted. -/
def spaceRay (contours : List (List (Pt α))) (dx dy : α) :
    ℕ → α → α → α → α
  | 0, _, _, d => d
  | fuel + 1, tx, ty, d =>
    if d < 100 then
      if isPointInsideShape tx ty contours then
        spaceRay contours dx dy fuel (tx + dx * 2) (ty + dy * 2) (d + 2)
      else d
    else d

/-- The 8 test directions (cardinal then diagonal) of
`calculateLocalSpaceAvailability`. -/
def testDirections : List (α × α) :=
  [(1, 0), (-1, 0), (0, 1), (0, -1), (1, 1), (-1, -1), (1, -1), (-1, 1)]

/-- `calculateLocalSpaceAvailability(validPoints, contours, bounds)`:
average, over the 8 directions, of the marched distance.  (The source's
`bounds` parameter is never read in the body and is dropped here.) -/
def calculateLocalSpaceAvailability (validPoints : List (SpacePoint α))
    (contours : List (List (Pt α))) : List (SpacePoint α) :=
  validPoints.map fun point =>
    let totalSpace := (testDirections (α := α)).foldl
      (fun acc dir => acc + spaceRay contours dir.1 dir.2 51 point.x point.y 0) 0
    ⟨point.x, point.y, totalSpace / 8⟩

/-- Stable insertion step for `sortDesc`: an element moves past `b` only if
its key is strictly smaller, so ties keep their original order — exactly the
behaviour of JavaScript's stable `sort` with comparator `(a, b) => key(b) - key(a)`. -/
def insertDesc {β κ : Type} [LinearOrder κ] (key : β → κ) (a : β) : List β → List β
  | [] => [a]
  | b :: l => if key a < key b then b :: insertDesc key a l else a :: b :: l

/-- Stable descending sort by `key`, modelling
`list.sort((a, b) => key(b) - key(a))`. -/
def sortDesc {β κ : Type} [LinearOrder κ] (key : β → κ) : List β → List β
  | [] => []
  | b :: l => insertDesc key b (sortDesc key l)

/-- `identifySpaceClusters(spaceMap)`: points with `localSpace > 30`,
sorted by `localSpace` descending. -/
def identifySpaceClusters (spaceMap : List (SpacePoint α)) : List (SpacePoint α) :=
  sortDesc (fun p => p.localSpace) (spaceMap.filter (fun p => decide (30 < p.localSpace)))

/-- `estimateShapeArea(contours, bounds) = bounds.width * bounds.height * 0.6`
(the `contours` parameter is never read in the body and is dropped here). -/
def estimateShapeArea (bounds : Bounds α) : α :=
  bounds.width * bounds.height * (6 / 10)

/-- `analyzeShapeGeometry(contours)`. -/
def analyzeShapeGeometry (contours : List (List (Pt α))) : ShapeInfo α :=
  let bounds := calculateBoundingBox contours
  let validPoints := sampleInteriorSpace contours bounds
  let spaceMap := calculateLocalSpaceAvailability validPoints contours
  ⟨bounds, validPoints, spaceMap, identifySpaceClusters spaceMap, contours,
    estimateShapeArea bounds⟩

end Sampling

section Specs

variable {α : Type} [LinearOrderedField α] [FloorRing α]

/-- `Math.round` (round half toward +∞), truncated to a natural count. -/
def roundJS (x : α) : ℕ := (Int.floor (x + 1 / 2)).toNat

/-- The fallback aspect-ratio palette `[1.0, 1.5, 0.67, 1.33, 0.8, 1.25]`. -/
def fallbackAspectRatios : List α :=
  [1, 15 / 10, 67 / 100, 133 / 100, 8 / 10, 125 / 100]

/-- `averageSpace`: `spaceValues.reduce((a, b) => a + b, 0) / spaceValues.length`
(left fold from 0; on an empty space map the JavaScript produces `NaN`, our
division by zero produces 0 — in both cases no rectangle can ever be placed,
because there are no candidate points, so the pipelines agree observably). -/
def averageSpaceOf (shapeInfo : ShapeInfo α) : α :=
  let spaceValues := shapeInfo.spaceMap.map (fun p => p.localSpace)
  spaceValues.foldl (· + ·) 0 / (spaceValues.length : α)

/-- One loop body of `generateFallbackRectangleSet`: a spec with a random
palette aspect ratio, no assigned image, `width = baseSize * aspect`,
`height = baseSize / aspect`. -/
def genFallbackSpec (averageSpace : α) (rng : ℕ → ℕ) (mult : α) (k : ℕ) : RectSpec α :=
  let baseSize := min (max (averageSpace * mult) (PLACEMENT_CONFIG (α := α)).minImageSize)
    (PLACEMENT_CONFIG (α := α)).maxImageSize
  let aspect := (fallbackAspectRatios (α := α)).getD
    (rng k % (fallbackAspectRatios (α := α)).length) 1
  ⟨baseSize * aspect, baseSize / aspect, aspect, none, mult, none, none⟩

/-- `generateFallbackRectangleSet(shapeInfo, targetCount)`: tiers
30%×0.8, 40%×0.6, 30%×0.4, sorted by priority descending. -/
def generateFallbackRectangleSet (shapeInfo : ShapeInfo α) (targetCount : ℕ)
    (rng : ℕ → ℕ) : List (RectSpec α) :=
  let averageSpace := averageSpaceOf shapeInfo
  let c1 := roundJS ((targetCount : α) * (30 / 100))
  let c2 := roundJS ((targetCount : α) * (40 / 100))
  let c3 := roundJS ((targetCount : α) * (30 / 100))
  sortDesc (fun s => s.priority)
    ((List.range c1).map (fun i => genFallbackSpec averageSpace rng (8 / 10) i) ++
     (List.range c2).map (fun i => genFallbackSpec averageSpace rng (6 / 10) (c1 + i)) ++
     (List.range c3).map (fun i => genFallbackSpec averageSpace rng (4 / 10) (c1 + c2 + i)))

/-- One loop body of `generateImageBasedRectangleSet`: pick a random image,
derive the rectangle from its natural aspect ratio (landscape: width is the
base size; portrait/square: height is the base size). -/
def genImageSpec (averageSpace : α) (availableImages : List (Img α))
    (imgRng : ℕ → ℕ) (mult : α) (k : ℕ) : RectSpec α :=
  let selectedImage := availableImages.getD (imgRng k % availableImages.length) ⟨0, 0⟩
  let imageAspect := selectedImage.width / selectedImage.height
  let baseSize := min (max (averageSpace * mult) (PLACEMENT_CONFIG (α := α)).minImageSize)
    (PLACEMENT_CONFIG (α := α)).maxImageSize
  if 1 < imageAspect then
    ⟨baseSize, baseSize / imageAspect, imageAspect, some selectedImage, mult,
      some selectedImage.width, some selectedImage.height⟩
  else
    ⟨baseSize * imageAspect, baseSize, imageAspect, some selectedImage, mult,
      some selectedImage.width, some selectedImage.height⟩

/-- `generateImageBasedRectangleSet(shapeInfo, availableImages, targetCount)`:
tiers 25%×0.9, 45%×0.7, 30%×0.5 over random images, sorted by priority
descending; falls back to `generateFallbackRectangleSet` when no images are
loaded. -/
def generateImageBasedRectangleSet (shapeInfo : ShapeInfo α)
    (availableImages : List (Img α)) (targetCount : ℕ) (imgRng : ℕ → ℕ) :
    List (RectSpec α) :=
  if availableImages.length = 0 then
    generateFallbackRectangleSet shapeInfo targetCount imgRng
  else
    let averageSpace := averageSpaceOf shapeInfo
    let c1 := roundJS ((targetCount : α) * (25 / 100))
    let c2 := roundJS ((targetCount : α) * (45 / 100))
    let c3 := roundJS ((targetCount : α) * (30 / 100))
    sortDesc (fun s => s.priority)
      ((List.range c1).map (fun i => genImageSpec averageSpace availableImages imgRng (9 / 10) i) ++
       (List.range c2).map (fun i =>
         genImageSpec averageSpace availableImages imgRng (7 / 10) (c1 + i)) ++
       (List.range c3).map (fun i =>
         genImageSpec averageSpace availableImages imgRng (5 / 10) (c1 + c2 + i)))

end Specs

section Validity

variable {α : Type} [LinearOrderedField α]

/-- `isRectangleInsideShape(rectangle, contours)`: the 4 corners, 4 edge
midpoints and the center must all pass the ray-casting inside test. -/
def isRectangleInsideShape (rectangle : Rect α) (contours : List (List (Pt α))) : Bool :=
  (([⟨rectangle.x, rectangle.y⟩,
     ⟨rectangle.x + rectangle.width, rectangle.y⟩,
     ⟨rectangle.x, rectangle.y + rectangle.height⟩,
     ⟨rectangle.x + rectangle.width, rectangle.y + rectangle.height⟩] : List (Pt α)).all
    (fun corner => isPointInsideShape corner.x corner.y contours)) &&
  (([⟨rectangle.x + rectangle.width / 2, rectangle.y⟩,
     ⟨rectangle.x + rectangle.width / 2, rectangle.y + rectangle.height⟩,
     ⟨rectangle.x, rectangle.y + rectangle.height / 2⟩,
     ⟨rectangle.x + rectangle.width, rectangle.y + rectangle.height / 2⟩] : List (Pt α)).all
    (fun point => isPointInsideShape point.x point.y contours)) &&
  isPointInsideShape (rectangle.x + rectangle.width / 2)
    (rectangle.y + rectangle.height / 2) contours

/-- One pass of the loop in `hasRectangleCollision`: open-interval overlap
on both axes. -/
def rectsOverlap (rectangle existing : Rect α) : Bool :=
  (decide (rectangle.x < existing.x + existing.width) &&
   decide (rectangle.x + rectangle.width > existing.x)) &&
  (decide (rectangle.y < existing.y + existing.height) &&
   decide (rectangle.y + rectangle.height > existing.y))

/-- `hasRectangleCollision(rectangle, existingRectangles)`. -/
def hasRectangleCollision (rectangle : Rect α) (existingRectangles : List (Rect α)) : Bool :=
  existingRectangles.any (rectsOverlap rectangle)

/-- `xDistance` of `maintainsMinimumSpacing`. -/
def xDist (a b : Rect α) : α :=
  max 0 (max (a.x - (b.x + b.width)) (b.x - (a.x + a.width)))

/-- `yDistance` of `maintainsMinimumSpacing`. -/
def yDist (a b : Rect α) : α :=
  max 0 (max (a.y - (b.y + b.height)) (b.y - (a.y + a.height)))

/-- One pass of the loop in `maintainsMinimumSpacing`: the separation is the
axis gap when the rectangles overlap in one coordinate, otherwise the
diagonal corner distance.  The source compares
`Math.sqrt(xD*xD + yD*yD) < minSpacing`; we compare
`xD*xD + yD*yD < minSpacing*minSpacing`, its exact-real equivalent. -/
def keepsSpacing (rectangle existing : Rect α) : Bool :=
  if xDist rectangle existing = 0 ∨ yDist rectangle existing = 0 then
    !decide (max (xDist rectangle existing) (yDist rectangle existing) <
      (PLACEMENT_CONFIG (α := α)).minSpacing)
  else
    !decide (xDist rectangle existing * xDist rectangle existing +
      yDist rectangle existing * yDist rectangle existing <
      (PLACEMENT_CONFIG (α := α)).minSpacing * (PLACEMENT_CONFIG (α := α)).minSpacing)

/-- `maintainsMinimumSpacing(rectangle, existingRectangles)`. -/
def maintainsMinimumSpacing (rectangle : Rect α) (existingRectangles : List (Rect α)) : Bool :=
  existingRectangles.all (keepsSpacing rectangle)

/-- `isRectanglePlacementValid(rectangle, existingRectangles, shapeInfo)`:
inside the shape, no collision, minimum spacing kept, and area at least
`minImageSize² * 0.5`. -/
def isRectanglePlacementValid (rectangle : Rect α) (existingRectangles : List (Rect α))
    (shapeInfo : ShapeInfo α) : Bool :=
  isRectangleInsideShape rectangle shapeInfo.contours &&
  !hasRectangleCollision rectangle existingRectangles &&
  maintainsMinimumSpacing rectangle existingRectangles &&
  !decide (rectangle.width * rectangle.height <
    (PLACEMENT_CONFIG (α := α)).minImageSize * (PLACEMENT_CONFIG (α := α)).minImageSize * (5 / 10))

end Validity

section Packer

variable {α : Type} [LinearOrderedField α]

/-- The `while (!placed && attempts < maxAttempts)` loop of
`placeRectanglesIteratively` for one spec.  Each pass consumes one unit of
fuel (`attempts++` happens first in the source, on the shrink branch too).
If no candidate point has enough local space, both dimensions shrink by 0.9
and the spec is abandoned once the width drops under `minImageSize`;
otherwise a random candidate is tried and committed if valid.  Returns the
placed rectangle (if any) and the advanced random-stream counter. -/
def tryPlace (shapeInfo : ShapeInfo α) (candRng : ℕ → ℕ) (spec : RectSpec α) :
    ℕ → α → α → ℕ → List (Rect α) → Option (Rect α) × ℕ
  | 0, _, _, k, _ => (none, k)
  | fuel + 1, currentWidth, currentHeight, k, placedRectangles =>
    let candidatePoints := shapeInfo.spaceMap.filter
      (fun p => decide (min currentWidth currentHeight / 2 ≤ p.localSpace))
    if candidatePoints.length = 0 then
      let w := currentWidth * (9 / 10)
      let h := currentHeight * (9 / 10)
      if w < (PLACEMENT_CONFIG (α := α)).minImageSize then (none, k)
      else tryPlace shapeInfo candRng spec fuel w h k placedRectangles
    else
      let centerPoint := candidatePoints.getD (candRng k % candidatePoints.length) ⟨0, 0, 0⟩
      let rectangle : Rect α :=
        ⟨centerPoint.x - currentWidth / 2, centerPoint.y - currentHeight / 2,
         currentWidth, currentHeight, centerPoint.x, centerPoint.y,
         spec.assignedImage, spec.aspectRatio⟩
      if isRectanglePlacementValid rectangle placedRectangles shapeInfo then
        (some rectangle, k + 1)
      else tryPlace shapeInfo candRng spec fuel currentWidth currentHeight (k + 1) placedRectangles

/-- The outer spec loop of `placeRectanglesIteratively`, accumulating the
committed rectangles in order. -/
def placeGo (shapeInfo : ShapeInfo α) (candRng : ℕ → ℕ) :
    List (RectSpec α) → ℕ → List (Rect α) → List (Rect α)
  | [], _, placedRectangles => placedRectangles
  | spec :: rest, k, placedRectangles =>
    match tryPlace shapeInfo candRng spec (PLACEMENT_CONFIG (α := α)).maxAttempts
      spec.width spec.height k placedRectangles with
    | (some r, k') => placeGo shapeInfo candRng rest k' (placedRectangles ++ [r])
    | (none, k') => placeGo shapeInfo candRng rest k' placedRectangles

/-- `placeRectanglesIteratively(specs, shapeInfo)`. -/
def placeRectanglesIteratively (specs : List (RectSpec α)) (shapeInfo : ShapeInfo α)
    (candRng : ℕ → ℕ) : List (Rect α) :=
  placeGo shapeInfo candRng specs 0 []

end Packer

section Optimizer

variable {α : Type} [LinearOrderedField α]

/-- x coordinate of the `centerOfMass` of `optimizePlacement`
(reduce from 0, divided by the list length). -/
def centerOfMassX (rectangles : List (Rect α)) : α :=
  (rectangles.map (fun r => r.centerX)).foldl (· + ·) 0 / (rectangles.length : α)

/-- y coordinate of the `centerOfMass` of `optimizePlacement`. -/
def centerOfMassY (rectangles : List (Rect α)) : α :=
  (rectangles.map (fun r => r.centerY)).foldl (· + ·) 0 / (rectangles.length : α)

/-- The `adjustedRect` object: the rectangle translated by
`(adjustX, adjustY)` with dimensions, image and aspect ratio untouched. -/
def nudged (rect : Rect α) (adjustX adjustY : α) : Rect α :=
  { rect with
    x := rect.x + adjustX
    y := rect.y + adjustY
    centerX := rect.centerX + adjustX
    centerY := rect.centerY + adjustY }

/-- The index loop of `optimizePlacement` over the mutable array: `optimized`
is the already-processed prefix, the second list the untouched suffix.  Index
`i` is replaced by its nudge exactly when the nudge passes validation against
all other current entries (`optimized ++ rest`). -/
def optimizeGo (shapeInfo : ShapeInfo α) (sqrtFn : α → α) (comX comY : α) :
    List (Rect α) → List (Rect α) → List (Rect α)
  | optimized, [] => optimized
  | optimized, rect :: rest =>
    let dx := rect.centerX - comX
    let dy := rect.centerY - comY
    let distance := sqrtFn (dx * dx + dy * dy)
    if 0 < distance then
      let adjustedRect := nudged rect (dx / distance * 3) (dy / distance * 3)
      if isRectanglePlacementValid adjustedRect (optimized ++ rest) shapeInfo then
        optimizeGo shapeInfo sqrtFn comX comY (optimized ++ [adjustedRect]) rest
      else
        optimizeGo shapeInfo sqrtFn comX comY (optimized ++ [rect]) rest
    else optimizeGo shapeInfo sqrtFn comX comY (optimized ++ [rect]) rest

/-- `optimizePlacement(rectangles, shapeInfo)`: one relaxation pass that
nudges each rectangle 3 px away from the centroid of all input centers,
keeping the nudge only if still valid (`adjustmentStrength = 3`). -/
def optimizePlacement (sqrtFn : α → α) (rectangles : List (Rect α))
    (shapeInfo : ShapeInfo α) : List (Rect α) :=
  optimizeGo shapeInfo sqrtFn (centerOfMassX rectangles) (centerOfMassY rectangles)
    [] rectangles

end Optimizer

section Pipeline

variable {α : Type} [LinearOrderedField α] [FloorRing α]

/-- `placeImagesInBodyOutline(contours, availableImages, targetCount)`:
analysis → spec generation → iterative placement → optimization; an empty
contour list short-circuits to `[]`. -/
def placeImagesInBodyOutline (contours : List (List (Pt α)))
    (availableImages : List (Img α)) (targetCount : ℕ)
    (imgRng candRng : ℕ → ℕ) (sqrtFn : α → α) : List (Rect α) :=
  if contours.length = 0 then []
  else
    let shapeInfo := analyzeShapeGeometry contours
    let rectangleSpecs := generateImageBasedRectangleSet shapeInfo availableImages
      targetCount imgRng
    let placedRectangles := placeRectanglesIteratively rectangleSpecs shapeInfo candRng
    optimizePlacement sqrtFn placedRectangles shapeInfo

end Pipeline

section EdgeDetection

/-- The pre-loaded mask data object `{mask, pixels, width, height}` consumed
by `extractEdgesFromMaskData`; `pixels : Option _` models the possibly
null/undefined `maskData.pixels` (a real pixel array is always truthy). -/
structure MaskData where
  pixels : Option (List ℕ)
  width : ℕ
  height : ℕ
deriving DecidableEq, Repr

/-- A p5 image mask after `loadPixels()`, consumed by `extractEdgesFromMask`. -/
structure Mask where
  pixels : List ℕ
  width : ℕ
  height : ℕ
deriving DecidableEq, Repr

/-- The horizontal Sobel kernel. -/
def sobelX : List (List ℤ) := [[-1, 0, 1], [-2, 0, 2], [-1, 0, 1]]

/-- The vertical Sobel kernel. -/
def sobelY : List (List ℤ) := [[-1, -2, -1], [0, 0, 0], [1, 2, 1]]

/-- `pixels[((y*width + x)*4 + 3)]`: the alpha channel at `(x, y)`
(out-of-range reads yield 0, as for a fully transparent border). -/
def alphaAt (pixels : List ℕ) (width x y : ℕ) : ℤ :=
  (pixels.getD ((y * width + x) * 4 + 3) 0 : ℤ)

/-- One Sobel convolution at interior pixel `(x, y)` (so `x, y ≥ 1` and the
`x + kx - 1` index arithmetic never underflows). -/
def gradientAt (pixels : List ℕ) (width x y : ℕ) (kernel : List (List ℤ)) : ℤ :=
  ((List.range 3).map (fun ky => (List.range 3).map (fun kx =>
    alphaAt pixels width (x + kx - 1) (y + ky - 1) *
      ((kernel.getD ky []).getD kx 0)))).flatten.foldl (· + ·) 0

/-- `detectEdgePixelsFromArray(pixels, width, height)`: border pixels stay
unmarked; an interior pixel is an edge when the gradient magnitude exceeds
500, i.e. (exactly, in integers) when `gx² + gy² > 250000`. -/
def detectEdgePixelsFromArray (pixels : List ℕ) (width height : ℕ) : List (List Bool) :=
  (List.range height).map fun y => (List.range width).map fun x =>
    if 1 ≤ y ∧ y + 1 < height ∧ 1 ≤ x ∧ x + 1 < width then
      let gradientX := gradientAt pixels width x y sobelX
      let gradientY := gradientAt pixels width x y sobelY
      decide (250000 < gradientX * gradientX + gradientY * gradientY)
    else false

/-- Read a 2D boolean grid at a possibly negative index (out of range: false). -/
def get2D (m : List (List Bool)) (x y : ℤ) : Bool :=
  if 0 ≤ x ∧ 0 ≤ y then (m.getD y.toNat []).getD x.toNat false else false

/-- Write a 2D boolean grid. -/
def set2D (m : List (List Bool)) (x y : ℕ) (b : Bool) : List (List Bool) :=
  m.set y ((m.getD y []).set x b)

/-- The 4-connected neighbourhood of `traceContour`, in the source's push
order: up, right, down, left. -/
def traceDirections : List (ℤ × ℤ) := [(0, -1), (1, 0), (0, 1), (-1, 0)]

/-- The `while (stack.length > 0)` loop of `traceContour`.  The JavaScript
stack pushes at the end and pops from the end; here the list head is the top,
so the (guarded) neighbour pushes are reversed before being prepended.  Each
pass pops one entry and at most `1 + 4*width*height` entries are ever pushed,
so the fuel `traceContour` supplies is never exhausted. -/
def traceGo (edgeMap : List (List Bool)) (width height : ℕ) :
    ℕ → List (ℤ × ℤ) → List (List Bool) → List (Pt ℚ) → List (Pt ℚ) × List (List Bool)
  | 0, _, visited, contour => (contour, visited)
  | _ + 1, [], visited, contour => (contour, visited)
  | fuel + 1, (x, y) :: stack, visited, contour =>
    if 0 ≤ x ∧ x < (width : ℤ) ∧ 0 ≤ y ∧ y < (height : ℤ) ∧
        get2D visited x y = false ∧ get2D edgeMap x y = true then
      let visited' := set2D visited x.toNat y.toNat true
      let contour' := contour ++ [⟨(x : ℚ), (y : ℚ)⟩]
      let pushes := traceDirections.filterMap (fun d =>
        let newX := x + d.1
        let newY := y + d.2
        if 0 ≤ newX ∧ newX < (width : ℤ) ∧ 0 ≤ newY ∧ newY < (height : ℤ) ∧
            get2D visited' newX newY = false ∧ get2D edgeMap newX newY = true then
          some (newX, newY)
        else none)
      traceGo edgeMap width height fuel (pushes.reverse ++ stack) visited' contour'
    else traceGo edgeMap width height fuel stack visited contour

/-- `traceContour(edgeMap, visited, startX, startY, width, height)`: returns
the traced component (in visit order) together with the updated `visited`
grid. -/
def traceContour (edgeMap visited : List (List Bool)) (startX startY width height : ℕ) :
    List (Pt ℚ) × List (List Bool) :=
  traceGo edgeMap width height (4 * width * height + 2)
    [((startX : ℤ), (startY : ℤ))] visited []

/-- `extractContours(edgeMap, width, height)`: raster scan; every unvisited
edge pixel seeds a traced component, kept when it has more than 10 points. -/
def extractContours (edgeMap : List (List Bool)) (width height : ℕ) :
    List (List (Pt ℚ)) :=
  let initVisited : List (List Bool) :=
    (List.range height).map (fun _ => (List.range width).map (fun _ => false))
  ((List.range height).foldl (fun st (y : ℕ) =>
    (List.range width).foldl (fun (st : List (List Bool) × List (List (Pt ℚ))) (x : ℕ) =>
      if get2D st.1 (x : ℤ) (y : ℤ) = false ∧ get2D edgeMap (x : ℤ) (y : ℤ) = true then
        let traced := traceContour edgeMap st.1 x y width height
        (traced.2, if 10 < traced.1.length then st.2 ++ [traced.1] else st.2)
      else st) st) (initVisited, [])).2

/-- `smoothContours(contours)`: window of ±3 neighbours (wrapping), centroid
of the 7 points; contours shorter than 5 points pass through unchanged. -/
def smoothContours (contours : List (List (Pt ℚ))) : List (List (Pt ℚ)) :=
  contours.map fun contour =>
    if contour.length < 5 then contour
    else (List.range contour.length).map fun i =>
      let window := (List.range 7).map fun j =>
        contour.getD ((i + j + contour.length - 3) % contour.length) ⟨0, 0⟩
      ⟨(window.map (fun p => p.x)).foldl (· + ·) 0 / 7,
       (window.map (fun p => p.y)).foldl (· + ·) 0 / 7⟩

/-- `filterContours(contours)`: sort by point count descending, drop
contours shorter than 50 points, then drop those shorter than 30% of the
longest survivor, and keep at most 2 (`maxContours`).  (`length * 0.3` is
read as the exact rational `length * 3/10`.) -/
def filterContours {π : Type} (contours : List (List π)) : List (List π) :=
  if contours.length = 0 then contours
  else
    let sorted := sortDesc (fun c => c.length) contours
    let significantContours := sorted.filter (fun c => decide (50 ≤ c.length))
    match significantContours with
    | [] => []
    | longest :: _ =>
      (significantContours.filter (fun c =>
        decide ((longest.length : ℚ) * (3 / 10) ≤ (c.length : ℚ)))).take 2

/-- `extractEdgesFromMaskData(maskData)`: `null` input, missing pixels, or a
zero dimension yield `null` (here `none`); otherwise the full detection →
tracing → smoothing → filtering pipeline runs. -/
def extractEdgesFromMaskData : Option MaskData → Option (List (List (Pt ℚ)))
  | none => none
  | some maskData =>
    match maskData.pixels with
    | none => none
    | some pixels =>
      if maskData.width = 0 ∨ maskData.height = 0 then none
      else
        let edgeMap := detectEdgePixelsFromArray pixels maskData.width maskData.height
        let contours := extractContours edgeMap maskData.width maskData.height
        let smoothedContours := smoothContours contours
        some (filterContours smoothedContours)

/-- `extractEdgesFromMask(mask)`: `null` or zero-dimension masks yield `null`
(here `none`); otherwise the mask's pixels are loaded once and passed on. -/
def extractEdgesFromMask : Option Mask → Option (List (List (Pt ℚ)))
  | none => none
  | some mask =>
    if mask.width = 0 ∨ mask.height = 0 then none
    else extractEdgesFromMaskData (some ⟨some mask.pixels, mask.width, mask.height⟩)

end EdgeDetection

section InvariantLemmas

variable {α : Type} [LinearOrderedField α]

/-- The open-interval overlap test is symmetric. -/
theorem rectsOverlap_comm (a b : Rect α) : rectsOverlap a b = rectsOverlap b a := by
  unfold rectsOverlap
  rw [Bool.and_comm (decide (a.x < b.x + b.width)),
    Bool.and_comm (decide (a.y < b.y + b.height))]

/-- `xDistance` is symmetric. -/
theorem xDist_comm (a b : Rect α) : xDist a b = xDist b a := by
  unfold xDist
  rw [max_comm (a.x - (b.x + b.width))]

/-- `yDistance` is symmetric. -/
theorem yDist_comm (a b : Rect α) : yDist a b = yDist b a := by
  unfold yDist
  rw [max_comm (a.y - (b.y + b.height))]

/-- The per-pair spacing test is symmetric. -/
theorem keepsSpacing_comm (a b : Rect α) : keepsSpacing a b = keepsSpacing b a := by
  unfold keepsSpacing
  rw [xDist_comm, yDist_comm]

/-- The conjunction a committed rectangle must satisfy against each
already-present rectangle. -/
def pairOK (a b : Rect α) : Prop :=
  rectsOverlap a b = false ∧ keepsSpacing a b = true

theorem pairOK_symm {a b : Rect α} (h : pairOK a b) : pairOK b a := by
  exact ⟨by rw [← rectsOverlap_comm]; exact h.1, by rw [← keepsSpacing_comm]; exact h.2⟩

/-- The placement invariant: every rectangle passes the inside test and any
two distinct rectangles neither overlap nor violate the spacing rule. -/
def placedOK (contours : List (List (Pt α))) (l : List (Rect α)) : Prop :=
  (∀ r ∈ l, isRectangleInsideShape r contours = true) ∧
    l.Pairwise (fun a b => pairOK a b)

theorem placedOK_nil (contours : List (List (Pt α))) : placedOK contours [] :=
  ⟨fun r hr => absurd hr (List.not_mem_nil r), List.Pairwise.nil⟩

/-- Unpacking `isRectanglePlacementValid ... = true`. -/
theorem valid_unpack {r : Rect α} {l : List (Rect α)} {si : ShapeInfo α}
    (h : isRectanglePlacementValid r l si = true) :
    isRectangleInsideShape r si.contours = true ∧
      (∀ e ∈ l, rectsOverlap r e = false) ∧
      (∀ e ∈ l, keepsSpacing r e = true) ∧
      ¬ r.width * r.height <
        (PLACEMENT_CONFIG (α := α)).minImageSize * (PLACEMENT_CONFIG (α := α)).minImageSize * (5 / 10) := by
  unfold isRectanglePlacementValid at h
  simp only [Bool.and_eq_true, Bool.not_eq_true', decide_eq_false_iff_not,
    hasRectangleCollision, maintainsMinimumSpacing, List.any_eq_false,
    List.all_eq_true] at h
  exact ⟨h.1.1.1, fun e he => Bool.eq_false_iff.mpr (h.1.1.2 e he),
    fun e he => h.1.2 e he, h.2⟩

/-- Appending a rectangle that passed validation preserves the invariant. -/
theorem placedOK_append {contours : List (List (Pt α))} {l : List (Rect α)}
    {r : Rect α} {si : ShapeInfo α} (hsi : si.contours = contours)
    (h : placedOK contours l) (hv : isRectanglePlacementValid r l si = true) :
    placedOK contours (l ++ [r]) := by
  obtain ⟨hin, hcol, hsp, _⟩ := valid_unpack hv
  constructor
  · intro x hx
    rcases List.mem_append.mp hx with hx | hx
    · exact h.1 x hx
    · rcases List.mem_singleton.mp hx with rfl
      rw [hsi] at hin; exact hin
  · rw [List.pairwise_append]
    refine ⟨h.2, List.pairwise_singleton _ _, ?_⟩
    intro a ha b hb
    rcases List.mem_singleton.mp hb with rfl
    exact pairOK_symm ⟨hcol a ha, hsp a ha⟩

end InvariantLemmas

section PackerLemmas

variable {α : Type} [LinearOrderedField α]

/-- Anything `tryPlace` commits passed validation against the rectangles
already placed, carries its spec's image and aspect-ratio tag, and has the
spec's current dimensions scaled by a common power of 0.9. -/
theorem tryPlace_some {si : ShapeInfo α} {rng : ℕ → ℕ} {spec : RectSpec α} :
    ∀ {fuel : ℕ} {w h : α} {k k' : ℕ} {l : List (Rect α)} {r : Rect α},
      tryPlace si rng spec fuel w h k l = (some r, k') →
      isRectanglePlacementValid r l si = true ∧
        r.assignedImage = spec.assignedImage ∧ r.aspectRatio = spec.aspectRatio ∧
        ∃ j : ℕ, r.width = w * (9 / 10) ^ j ∧ r.height = h * (9 / 10) ^ j := by
  intro fuel
  induction fuel with
  | zero =>
    intro w h k k' l r heq
    simp [tryPlace] at heq
  | succ n ih =>
    intro w h k k' l r heq
    simp only [tryPlace] at heq
    split at heq
    · split at heq
      · simp at heq
      · obtain ⟨hv, him, har, j, hw, hh⟩ := ih heq
        exact ⟨hv, him, har, j + 1, by rw [hw]; ring, by rw [hh]; ring⟩
    · split at heq
      · rename_i hvalid
        rw [Prod.mk.injEq] at heq
        obtain ⟨h1, rfl⟩ := heq
        obtain rfl := Option.some.inj h1
        exact ⟨hvalid, rfl, rfl, 0, by simp, by simp⟩
      · exact ih heq

/-- The committed rectangles satisfy the placement invariant. -/
theorem placeGo_placedOK {si : ShapeInfo α} {rng : ℕ → ℕ}
    {contours : List (List (Pt α))} (hsi : si.contours = contours) :
    ∀ (specs : List (RectSpec α)) (k : ℕ) (l : List (Rect α)),
      placedOK contours l → placedOK contours (placeGo si rng specs k l) := by
  intro specs
  induction specs with
  | nil => intro k l h; simpa [placeGo] using h
  | cons spec rest ih =>
    intro k l h
    rcases htp : tryPlace si rng spec (PLACEMENT_CONFIG (α := α)).maxAttempts
        spec.width spec.height k l with ⟨res, k'⟩
    cases res with
    | none => rw [placeGo, htp]; exact ih k' l h
    | some r =>
      rw [placeGo, htp]
      exact ih k' (l ++ [r]) (placedOK_append hsi h (tryPlace_some htp).1)

/-- At most one rectangle is emitted per spec. -/
theorem placeGo_length {si : ShapeInfo α} {rng : ℕ → ℕ} :
    ∀ (specs : List (RectSpec α)) (k : ℕ) (l : List (Rect α)),
      (placeGo si rng specs k l).length ≤ l.length + specs.length := by
  intro specs
  induction specs with
  | nil => intro k l; simp [placeGo]
  | cons spec rest ih =>
    intro k l
    rcases htp : tryPlace si rng spec (PLACEMENT_CONFIG (α := α)).maxAttempts
        spec.width spec.height k l with ⟨res, k'⟩
    cases res with
    | none =>
      rw [placeGo, htp]
      calc (placeGo si rng rest k' l).length ≤ l.length + rest.length := ih k' l
        _ ≤ l.length + (spec :: rest).length := by
          simp only [List.length_cons]; omega
    | some r =>
      rw [placeGo, htp]
      calc (placeGo si rng rest k' (l ++ [r])).length
          ≤ (l ++ [r]).length + rest.length := ih k' (l ++ [r])
        _ = l.length + (spec :: rest).length := by
          simp only [List.length_append, List.length_cons, List.length_nil]; omega

/-- Every rectangle in the packer's output either was already placed or
stems from one of the specs: it passed validation at commit time, carries
that spec's image and aspect tag, and has the spec's dimensions scaled by a
common power of 0.9. -/
theorem placeGo_members {si : ShapeInfo α} {rng : ℕ → ℕ} :
    ∀ (specs : List (RectSpec α)) (k : ℕ) (l : List (Rect α)) (r : Rect α),
      r ∈ placeGo si rng specs k l →
      r ∈ l ∨ ∃ spec ∈ specs,
        r.assignedImage = spec.assignedImage ∧ r.aspectRatio = spec.aspectRatio ∧
        (¬ r.width * r.height <
          (PLACEMENT_CONFIG (α := α)).minImageSize * (PLACEMENT_CONFIG (α := α)).minImageSize * (5 / 10)) ∧
        ∃ j : ℕ, r.width = spec.width * (9 / 10) ^ j ∧ r.height = spec.height * (9 / 10) ^ j := by
  intro specs
  induction specs with
  | nil => intro k l r h; exact Or.inl (by simpa [placeGo] using h)
  | cons spec rest ih =>
    intro k l r h
    rcases htp : tryPlace si rng spec (PLACEMENT_CONFIG (α := α)).maxAttempts
        spec.width spec.height k l with ⟨res, k'⟩
    cases res with
    | none =>
      rw [placeGo, htp] at h
      rcases ih k' l r h with hl | ⟨s, hs, hrest⟩
      · exact Or.inl hl
      · exact Or.inr ⟨s, List.mem_cons_of_mem _ hs, hrest⟩
    | some r₀ =>
      rw [placeGo, htp] at h
      rcases ih k' (l ++ [r₀]) r h with hl | ⟨s, hs, hrest⟩
      · rcases List.mem_append.mp hl with hl | hl
        · exact Or.inl hl
        · rcases List.mem_singleton.mp hl with rfl
          obtain ⟨hv, him, har, j, hw, hh⟩ := tryPlace_some htp
          exact Or.inr ⟨spec, List.mem_cons_self .., him, har,
            (valid_unpack hv).2.2.2, j, hw, hh⟩
      · exact Or.inr ⟨s, List.mem_cons_of_mem _ hs, hrest⟩

end PackerLemmas

section OptimizerLemmas

variable {α : Type} [LinearOrderedField α]

/-- Replacing the rectangle at the split point by one that passed validation
against all the others preserves the invariant. -/
theorem placedOK_replace {contours : List (List (Pt α))} {si : ShapeInfo α}
    (hsi : si.contours = contours) {done rest : List (Rect α)} {rect r' : Rect α}
    (h : placedOK contours (done ++ rect :: rest))
    (hv : isRectanglePlacementValid r' (done ++ rest) si = true) :
    placedOK contours (done ++ r' :: rest) := by
  obtain ⟨hin, hcol, hsp, _⟩ := valid_unpack hv
  obtain ⟨hc, hp⟩ := h
  rw [List.pairwise_append, List.pairwise_cons] at hp
  obtain ⟨pd, ⟨hrectRest, pr⟩, hcross⟩ := hp
  constructor
  · intro x hx
    rcases List.mem_append.mp hx with hx | hx
    · exact hc x (List.mem_append_left _ hx)
    · rcases List.mem_cons.mp hx with rfl | hx
      · rw [hsi] at hin; exact hin
      · exact hc x (List.mem_append_right _ (List.mem_cons_of_mem _ hx))
  · rw [List.pairwise_append, List.pairwise_cons]
    refine ⟨pd, ⟨?_, pr⟩, ?_⟩
    · intro b hb
      exact ⟨Bool.eq_false_iff.mpr (fun hb' => by
          have := hcol b (List.mem_append_right _ hb); rw [this] at hb'; exact absurd hb' (by simp)),
        hsp b (List.mem_append_right _ hb)⟩
    · intro a ha b hb
      rcases List.mem_cons.mp hb with rfl | hb
      · exact pairOK_symm ⟨hcol a (List.mem_append_left _ ha), hsp a (List.mem_append_left _ ha)⟩
      · exact hcross a ha b (List.mem_cons_of_mem _ hb)

/-- The optimizer loop preserves the placement invariant: every entry is
either kept unchanged or replaced by a nudge that passed validation against
all the others. -/
theorem optimizeGo_placedOK {contours : List (List (Pt α))} {si : ShapeInfo α}
    (hsi : si.contours = contours) (f : α → α) (cx cy : α) :
    ∀ (todo done : List (Rect α)), placedOK contours (done ++ todo) →
      placedOK contours (optimizeGo si f cx cy done todo) := by
  intro todo
  induction todo with
  | nil => intro done h; simpa [optimizeGo] using h
  | cons rect rest ih =>
    intro done h
    simp only [optimizeGo]
    split
    · split
      · rename_i hvalid
        refine ih _ ?_
        rw [List.append_assoc, List.singleton_append]
        exact placedOK_replace hsi h hvalid
      · refine ih _ ?_
        rw [List.append_assoc, List.singleton_append]
        exact h
    · refine ih _ ?_
      rw [List.append_assoc, List.singleton_append]
      exact h

/-- The frame property of the optimizer loop: the processed part grows by
exactly one output per input, in order; each output keeps its input's
dimensions, aspect tag and image, and either is the input itself or is the
input translated by `(dx/d*3, dy/d*3)` where `d = sqrtFn (dx² + dy²) > 0` is
the source's `distance` for the displacement `(dx, dy)` from the centroid. -/
theorem optimizeGo_forall2 (si : ShapeInfo α) (f : α → α) (cx cy : α) :
    ∀ (todo done : List (Rect α)), ∃ out,
      optimizeGo si f cx cy done todo = done ++ out ∧
      List.Forall₂ (fun o r =>
        o.width = r.width ∧ o.height = r.height ∧
        o.aspectRatio = r.aspectRatio ∧ o.assignedImage = r.assignedImage ∧
        (o = r ∨ ∃ d : α,
          d = f ((r.centerX - cx) * (r.centerX - cx) + (r.centerY - cy) * (r.centerY - cy)) ∧
          0 < d ∧
          o.x = r.x + (r.centerX - cx) / d * 3 ∧
          o.y = r.y + (r.centerY - cy) / d * 3 ∧
          o.centerX = r.centerX + (r.centerX - cx) / d * 3 ∧
          o.centerY = r.centerY + (r.centerY - cy) / d * 3)) out todo := by
  intro todo
  induction todo with
  | nil =>
    intro done
    exact ⟨[], by simp [optimizeGo], List.Forall₂.nil⟩
  | cons rect rest ih =>
    intro done
    simp only [optimizeGo]
    split
    · split
      · rename_i hdist _
        set d := f ((rect.centerX - cx) * (rect.centerX - cx) +
          (rect.centerY - cy) * (rect.centerY - cy)) with hd
        obtain ⟨out, hout, hfa⟩ := ih (done ++
          [nudged rect ((rect.centerX - cx) / d * 3) ((rect.centerY - cy) / d * 3)])
        refine ⟨nudged rect ((rect.centerX - cx) / d * 3) ((rect.centerY - cy) / d * 3) :: out,
          ?_, List.Forall₂.cons ⟨rfl, rfl, rfl, rfl, Or.inr
            ⟨d, hd, hdist, rfl, rfl, rfl, rfl⟩⟩ hfa⟩
        rw [hout, List.append_assoc, List.singleton_append]
      · obtain ⟨out, hout, hfa⟩ := ih (done ++ [rect])
        refine ⟨rect :: out, ?_, List.Forall₂.cons ⟨rfl, rfl, rfl, rfl, Or.inl rfl⟩ hfa⟩
        rw [hout, List.append_assoc, List.singleton_append]
    · obtain ⟨out, hout, hfa⟩ := ih (done ++ [rect])
      refine ⟨rect :: out, ?_, List.Forall₂.cons ⟨rfl, rfl, rfl, rfl, Or.inl rfl⟩ hfa⟩
      rw [hout, List.append_assoc, List.singleton_append]

/-- `optimizePlacement` preserves the placement invariant. -/
theorem optimizePlacement_placedOK {contours : List (List (Pt α))} {si : ShapeInfo α}
    (hsi : si.contours = contours) (f : α → α) (l : List (Rect α))
    (h : placedOK contours l) :
    placedOK contours (optimizePlacement f l si) :=
  optimizeGo_placedOK hsi f _ _ l [] h

/-- `optimizePlacement` returns one output per input, in order, with the
frame/nudge correspondence. -/
theorem optimizePlacement_forall2 (si : ShapeInfo α) (f : α → α) (l : List (Rect α)) :
    List.Forall₂ (fun o r =>
      o.width = r.width ∧ o.height = r.height ∧
      o.aspectRatio = r.aspectRatio ∧ o.assignedImage = r.assignedImage ∧
      (o = r ∨ ∃ d : α,
        d = f ((r.centerX - centerOfMassX l) * (r.centerX - centerOfMassX l) +
          (r.centerY - centerOfMassY l) * (r.centerY - centerOfMassY l)) ∧
        0 < d ∧
        o.x = r.x + (r.centerX - centerOfMassX l) / d * 3 ∧
        o.y = r.y + (r.centerY - centerOfMassY l) / d * 3 ∧
        o.centerX = r.centerX + (r.centerX - centerOfMassX l) / d * 3 ∧
        o.centerY = r.centerY + (r.centerY - centerOfMassY l) / d * 3))
      (optimizePlacement f l si) l := by
  obtain ⟨out, hout, hfa⟩ := optimizeGo_forall2 si f (centerOfMassX l) (centerOfMassY l) l []
  rw [optimizePlacement, hout, List.nil_append]
  exact hfa

/-- The optimizer never changes the number of rectangles. -/
theorem optimizePlacement_length (si : ShapeInfo α) (f : α → α) (l : List (Rect α)) :
    (optimizePlacement f l si).length = l.length :=
  (optimizePlacement_forall2 si f l).length_eq

/-- Extracting a corresponding input for each member of a `Forall₂`. -/
theorem forall2_mem_left {β γ : Type} {R : β → γ → Prop} :
    ∀ {l₁ : List β} {l₂ : List γ}, List.Forall₂ R l₁ l₂ →
      ∀ o ∈ l₁, ∃ r ∈ l₂, R o r := by
  intro l₁ l₂ h
  induction h with
  | nil => intro o ho; exact absurd ho (List.not_mem_nil o)
  | cons hR _ ih =>
    intro o ho
    rcases List.mem_cons.mp ho with rfl | ho
    · exact ⟨_, List.mem_cons_self .., hR⟩
    · obtain ⟨r, hr, hRr⟩ := ih o ho
      exact ⟨r, List.mem_cons_of_mem _ hr, hRr⟩

end OptimizerLemmas

section SortLemmas

variable {β κ : Type} [LinearOrder κ]

theorem insertDesc_length (key : β → κ) (a : β) :
    ∀ l : List β, (insertDesc key a l).length = l.length + 1 := by
  intro l
  induction l with
  | nil => simp [insertDesc]
  | cons b t ih =>
    rw [insertDesc]
    split
    · simp [ih]
    · simp

theorem sortDesc_length (key : β → κ) :
    ∀ l : List β, (sortDesc key l).length = l.length := by
  intro l
  induction l with
  | nil => simp [sortDesc]
  | cons b t ih => rw [sortDesc, insertDesc_length, ih]; simp

theorem insertDesc_mem (key : β → κ) (a x : β) :
    ∀ l : List β, x ∈ insertDesc key a l → x = a ∨ x ∈ l := by
  intro l
  induction l with
  | nil => intro h; simpa [insertDesc] using h
  | cons b t ih =>
    rw [insertDesc]
    split
    · intro h
      rcases List.mem_cons.mp h with rfl | h
      · exact Or.inr (List.mem_cons_self ..)
      · rcases ih h with h | h
        · exact Or.inl h
        · exact Or.inr (List.mem_cons_of_mem _ h)
    · intro h
      rcases List.mem_cons.mp h with rfl | h
      · exact Or.inl rfl
      · exact Or.inr h

theorem sortDesc_mem (key : β → κ) (x : β) :
    ∀ l : List β, x ∈ sortDesc key l → x ∈ l := by
  intro l
  induction l with
  | nil => intro h; rw [sortDesc] at h; exact h
  | cons b t ih =>
    intro h
    rcases insertDesc_mem key b x _ (by rw [sortDesc] at h; exact h) with rfl | h
    · exact List.mem_cons_self ..
    · exact List.mem_cons_of_mem _ (ih h)

end SortLemmas

section PipelineLemmas

variable {α : Type} [LinearOrderedField α] [FloorRing α]

theorem analyzeShapeGeometry_contours (contours : List (List (Pt α))) :
    (analyzeShapeGeometry contours).contours = contours := rfl

/-- The full pipeline's output satisfies the placement invariant. -/
theorem placeImagesInBodyOutline_placedOK (contours : List (List (Pt α)))
    (availableImages : List (Img α)) (targetCount : ℕ)
    (imgRng candRng : ℕ → ℕ) (sqrtFn : α → α) :
    placedOK contours
      (placeImagesInBodyOutline contours availableImages targetCount imgRng candRng sqrtFn) := by
  unfold placeImagesInBodyOutline
  split
  · exact placedOK_nil contours
  · exact optimizePlacement_placedOK rfl sqrtFn _
      (by unfold placeRectanglesIteratively
          exact placeGo_placedOK rfl _ 0 [] (placedOK_nil contours))

end PipelineLemmas

section ClaimsMain

/-- C1.  Containment invariant: every rectangle returned by the placement
pipeline `placeImagesInBodyOutline` — for any contour set, image pool, target
count, random streams, and square-root routine — passes
`isRectangleInsideShape` against the contour set that produced it, i.e. all
4 corners, all 4 edge midpoints, and the center point pass the ray-casting
inside test; the optimizer's nudge pass preserves this because a nudge is
kept only when `isRectanglePlacementValid` (which re-checks containment)
succeeds. -/
theorem C1_containment_invariant (contours : List (List (Pt ℚ)))
    (availableImages : List (Img ℚ)) (targetCount : ℕ)
    (imgRng candRng : ℕ → ℕ) (sqrtFn : ℚ → ℚ) :
    (placeImagesInBodyOutline contours availableImages targetCount imgRng candRng sqrtFn).all
      (fun r => isRectangleInsideShape r contours) = true := by
  rw [List.all_eq_true]
  intro r hr
  exact (placeImagesInBodyOutline_placedOK contours availableImages targetCount
    imgRng candRng sqrtFn).1 r hr

/-- Reading `rectsOverlap` as the arithmetic overlap condition. -/
theorem rectsOverlap_true_iff {α : Type} [LinearOrderedField α] (a b : Rect α) :
    rectsOverlap a b = true ↔
      ((a.x < b.x + b.width ∧ a.x + a.width > b.x) ∧
       (a.y < b.y + b.height ∧ a.y + a.height > b.y)) := by
  simp [rectsOverlap]

/-- Reading a passed `keepsSpacing` check as the arithmetic spacing bound:
the axis gap when the rectangles overlap in one coordinate is at least 8,
and otherwise the squared diagonal corner distance is at least 8² = 64
(the source compares `Math.sqrt` of it with 8). -/
theorem keepsSpacing_spec {α : Type} [LinearOrderedField α] {a b : Rect α}
    (h : keepsSpacing a b = true) :
    (xDist a b = 0 ∨ yDist a b = 0 → 8 ≤ max (xDist a b) (yDist a b)) ∧
    (xDist a b ≠ 0 ∧ yDist a b ≠ 0 →
      64 ≤ xDist a b * xDist a b + yDist a b * yDist a b) := by
  unfold keepsSpacing at h
  split at h
  · rename_i hc
    refine ⟨fun _ => ?_, fun hne => absurd hc (by tauto)⟩
    have := of_decide_eq_false (Bool.not_eq_true' .. ▸ h)
    unfold PLACEMENT_CONFIG at this
    rw [not_lt] at this
    exact this
  · rename_i hc
    refine ⟨fun hor => absurd hor hc, fun _ => ?_⟩
    have := of_decide_eq_false (Bool.not_eq_true' .. ▸ h)
    unfold PLACEMENT_CONFIG at this
    rw [not_lt] at this
    calc (64 : α) = 8 * 8 := by norm_num
      _ ≤ _ := this

/-- C2.  No-overlap invariant: for any two distinct rectangles returned by
one call of the placement pipeline, the axis-aligned interval-overlap
condition of `hasRectangleCollision` fails — their bounding boxes do not
intersect on both axes at once — including after the optimizer's nudge
pass. -/
theorem C2_no_overlap_invariant (contours : List (List (Pt ℚ)))
    (availableImages : List (Img ℚ)) (targetCount : ℕ)
    (imgRng candRng : ℕ → ℕ) (sqrtFn : ℚ → ℚ) :
    (placeImagesInBodyOutline contours availableImages targetCount imgRng candRng sqrtFn).Pairwise
      (fun a b => ¬ ((a.x < b.x + b.width ∧ a.x + a.width > b.x) ∧
        (a.y < b.y + b.height ∧ a.y + a.height > b.y))) := by
  refine ((placeImagesInBodyOutline_placedOK contours availableImages targetCount
    imgRng candRng sqrtFn).2).imp ?_
  intro a b h hcon
  have := (rectsOverlap_true_iff a b).mpr hcon
  rw [h.1] at this
  exact absurd this (by simp)

/-- C3.  Spacing invariant: for any two distinct rectangles returned by one
call of the placement pipeline, the axis gap (`xDistance`/`yDistance` of
`maintainsMinimumSpacing`) is at least `minSpacing = 8` when the rectangles
overlap in one coordinate, and otherwise the squared corner-to-corner
distance is at least 8² = 64 (the source compares its `Math.sqrt` with 8);
this holds including after the optimizer's nudge pass. -/
theorem C3_spacing_invariant (contours : List (List (Pt ℚ)))
    (availableImages : List (Img ℚ)) (targetCount : ℕ)
    (imgRng candRng : ℕ → ℕ) (sqrtFn : ℚ → ℚ) :
    (placeImagesInBodyOutline contours availableImages targetCount imgRng candRng sqrtFn).Pairwise
      (fun a b =>
        (xDist a b = 0 ∨ yDist a b = 0 → 8 ≤ max (xDist a b) (yDist a b)) ∧
        (xDist a b ≠ 0 ∧ yDist a b ≠ 0 →
          64 ≤ xDist a b * xDist a b + yDist a b * yDist a b)) := by
  refine ((placeImagesInBodyOutline_placedOK contours availableImages targetCount
    imgRng candRng sqrtFn).2).imp ?_
  intro a b h
  exact keepsSpacing_spec h.2

/-- C9.  The iterative packer emits at most one rectangle per spec, so its
output is never longer than the spec list; failed specs are skipped (our
embedding is a total function — nothing is thrown) and the remaining specs'
rectangles are still returned. -/
theorem C9_at_most_one_per_spec (specs : List (RectSpec ℚ)) (shapeInfo : ShapeInfo ℚ)
    (candRng : ℕ → ℕ) :
    (placeRectanglesIteratively specs shapeInfo candRng).length ≤ specs.length := by
  unfold placeRectanglesIteratively
  have h := @placeGo_length ℚ _ shapeInfo candRng specs 0 []
  simpa using h

end ClaimsMain

section SpecCountLemmas

/-- For `targetCount = 6` the image-based generator creates
`round(1.5) + round(2.7) + round(1.8) = 2 + 3 + 2 = 7` specs; the fallback
generator creates `2 + 2 + 2 = 6`. -/
theorem gen_length_six (si : ShapeInfo ℚ) (imgs : List (Img ℚ)) (imgRng : ℕ → ℕ) :
    (generateImageBasedRectangleSet si imgs 6 imgRng).length ≤ 7 := by
  unfold generateImageBasedRectangleSet generateFallbackRectangleSet
  have h30 : roundJS ((6 : ℚ) * (30 / 100)) = 2 := by with_unfolding_all decide
  have h40 : roundJS ((6 : ℚ) * (40 / 100)) = 2 := by with_unfolding_all decide
  have h25 : roundJS ((6 : ℚ) * (25 / 100)) = 2 := by with_unfolding_all decide
  have h45 : roundJS ((6 : ℚ) * (45 / 100)) = 3 := by with_unfolding_all decide
  split
  · rw [sortDesc_length]
    simp [h30, h40]
  · rw [sortDesc_length]
    simp [h25, h45, h30]

/-- C4 (amended).  With `targetCount = 6` the pipeline returns between 0 and
7 rectangles: the generator creates 7 specs (2 large + 3 medium + 2 small,
by JavaScript rounding) and the packer emits at most one rectangle per spec;
the lower bound 0 (not 1) is attained, see the counterexample. -/
theorem C4_amended_at_most_seven (contours : List (List (Pt ℚ)))
    (availableImages : List (Img ℚ)) (imgRng candRng : ℕ → ℕ) (sqrtFn : ℚ → ℚ) :
    (placeImagesInBodyOutline contours availableImages 6 imgRng candRng sqrtFn).length ≤ 7 := by
  unfold placeImagesInBodyOutline
  split
  · simp
  · rw [optimizePlacement_length]
    unfold placeRectanglesIteratively
    calc (placeGo (analyzeShapeGeometry contours) candRng
          (generateImageBasedRectangleSet (analyzeShapeGeometry contours) availableImages 6 imgRng)
          0 []).length
        ≤ ([] : List (Rect ℚ)).length +
          (generateImageBasedRectangleSet (analyzeShapeGeometry contours) availableImages 6 imgRng).length :=
          placeGo_length _ 0 []
      _ ≤ 7 := by
          simpa using gen_length_six (analyzeShapeGeometry contours) availableImages imgRng

end SpecCountLemmas

section AspectLemmas

/-- Any spec the generator produces either carries no image, or its
dimensions satisfy the cross-multiplied aspect identity with its image, or it
is degenerate with width 0 (which only happens for an image of height 0). -/
theorem gen_spec_aspect (si : ShapeInfo ℚ) (imgs : List (Img ℚ)) (t : ℕ) (rng : ℕ → ℕ) :
    ∀ spec ∈ generateImageBasedRectangleSet si imgs t rng, ∀ img : Img ℚ,
      spec.assignedImage = some img →
      spec.width * img.height = spec.height * img.width ∨ spec.width = 0 := by
  intro spec hspec img himg
  unfold generateImageBasedRectangleSet at hspec
  split at hspec
  · -- fallback branch: no image is ever assigned
    exfalso
    unfold generateFallbackRectangleSet at hspec
    have hmem := sortDesc_mem _ _ _ hspec
    simp only [List.mem_append, List.mem_map, List.mem_range] at hmem
    rcases hmem with ⟨⟨i, _, rfl⟩ | ⟨i, _, rfl⟩⟩ | ⟨i, _, rfl⟩ <;>
      simp [genFallbackSpec] at himg
  · have hmem := sortDesc_mem _ _ _ hspec
    simp only [List.mem_append, List.mem_map, List.mem_range] at hmem
    have main : ∀ (mult : ℚ) (k : ℕ),
        genImageSpec (averageSpaceOf si) imgs rng mult k = spec →
        spec.width * img.height = spec.height * img.width ∨ spec.width = 0 := by
      intro mult k hk
      unfold genImageSpec at hk
      set selectedImage := imgs.getD (rng k % imgs.length) ⟨0, 0⟩ with hsel
      set baseSize := min (max (averageSpaceOf si * mult) (PLACEMENT_CONFIG (α := ℚ)).minImageSize)
        (PLACEMENT_CONFIG (α := ℚ)).maxImageSize with hbase
      by_cases hasp : 1 < selectedImage.width / selectedImage.height
      · rw [if_pos hasp] at hk
        subst hk
        obtain rfl : img = selectedImage := by
          have := Option.some.inj (by simpa using himg)
          exact this.symm
        simp only
        left
        have hh : selectedImage.height ≠ 0 := by
          intro h0
          rw [h0, div_zero] at hasp
          exact absurd hasp (by norm_num)
        have hw : selectedImage.width ≠ 0 := by
          intro h0
          rw [h0, zero_div] at hasp
          exact absurd hasp (by norm_num)
        field_simp
      · rw [if_neg hasp] at hk
        subst hk
        obtain rfl : img = selectedImage := by
          have := Option.some.inj (by simpa using himg)
          exact this.symm
        simp only
        by_cases hh : selectedImage.height = 0
        · right
          rw [hh, div_zero, mul_zero]
        · left
          field_simp
    rcases hmem with ⟨⟨i, _, hk⟩ | ⟨i, _, hk⟩⟩ | ⟨i, _, hk⟩
    · exact main _ _ hk
    · exact main _ _ hk
    · exact main _ _ hk

/-- C6.  Aspect preservation: every rectangle the pipeline returns that
carries an assigned image satisfies `width * imageHeight = height * imageWidth`,
i.e. `width / height` equals the image's native `width / height` (exactly, in
our rational model; the JavaScript achieves it up to float rounding).  The
identity survives the generator, the packer's 0.9-shrink retries (both sides
scale by the same power of 0.9) and the optimizer (which never changes
dimensions or image). -/
theorem C6_aspect_preservation (contours : List (List (Pt ℚ)))
    (availableImages : List (Img ℚ)) (targetCount : ℕ)
    (imgRng candRng : ℕ → ℕ) (sqrtFn : ℚ → ℚ) :
    (placeImagesInBodyOutline contours availableImages targetCount imgRng candRng sqrtFn).all
      (fun r => match r.assignedImage with
        | some img => decide (r.width * img.height = r.height * img.width)
        | none => true) = true := by
  rw [List.all_eq_true]
  intro o ho
  unfold placeImagesInBodyOutline at ho
  split at ho
  · exact absurd ho (List.not_mem_nil o)
  · -- walk the optimizer frame back to a packed rectangle
    obtain ⟨r, hr, hw, hh, _, himg, _⟩ :=
      forall2_mem_left (optimizePlacement_forall2 _ sqrtFn _) o ho
    -- and the packed rectangle back to its spec
    unfold placeRectanglesIteratively at hr
    rcases placeGo_members _ 0 [] r hr with h0 | ⟨spec, hspec, himg', _, harea, j, hwj, hhj⟩
    · exact absurd h0 (List.not_mem_nil r)
    rcases hcase : r.assignedImage with _ | img
    · rw [himg, hcase]
    · rw [himg, hcase]
      simp only [decide_eq_true_eq]
      rw [hcase] at himg'
      rcases gen_spec_aspect _ availableImages targetCount imgRng spec hspec img himg'.symm
        with hcross | hzero
      · rw [hw, hh, hwj, hhj]
        calc spec.width * (9 / 10) ^ j * img.height
            = spec.width * img.height * (9 / 10) ^ j := by ring
          _ = spec.height * img.width * (9 / 10) ^ j := by rw [hcross]
          _ = spec.height * (9 / 10) ^ j * img.width := by ring
      · exfalso
        apply harea
        rw [hwj, hzero]
        norm_num [PLACEMENT_CONFIG]

end AspectLemmas

section OptimizerFrame

/-- C10.  The optimizer's frame effect, at `α := ℝ` with `Math.sqrt`
realised as `Real.sqrt`: `optimizePlacement` returns exactly one rectangle
per input rectangle, in the same order (`Forall₂`); it never changes
`width`, `height`, `aspectRatio` or `assignedImage`; each output either
equals its input or is a pure translation (x and y move exactly with the
center) whose center displacement has squared norm 9 — i.e. length exactly
3 px — and is a positive multiple of the vector from the centroid of all
input centers to the input's center, i.e. points directly away from the
centroid. -/
theorem C10_optimizer_frame_effect (si : ShapeInfo ℝ) (l : List (Rect ℝ)) :
    List.Forall₂ (fun o r =>
      o.width = r.width ∧ o.height = r.height ∧
      o.aspectRatio = r.aspectRatio ∧ o.assignedImage = r.assignedImage ∧
      (o = r ∨
        (o.x - r.x = o.centerX - r.centerX ∧
         o.y - r.y = o.centerY - r.centerY ∧
         (o.centerX - r.centerX) * (o.centerX - r.centerX) +
           (o.centerY - r.centerY) * (o.centerY - r.centerY) = 9 ∧
         ∃ k : ℝ, 0 < k ∧
           o.centerX - r.centerX = k * (r.centerX - centerOfMassX l) ∧
           o.centerY - r.centerY = k * (r.centerY - centerOfMassY l))))
      (optimizePlacement Real.sqrt l si) l := by
  refine (optimizePlacement_forall2 si Real.sqrt l).imp ?_
  rintro o r ⟨hw, hh, ha, hi, hmv⟩
  refine ⟨hw, hh, ha, hi, ?_⟩
  rcases hmv with rfl | ⟨d, hd, hdpos, hx, hy, hcx, hcy⟩
  · exact Or.inl rfl
  · right
    have hdne : d ≠ 0 := ne_of_gt hdpos
    have hdd : d * d =
        (r.centerX - centerOfMassX l) * (r.centerX - centerOfMassX l) +
        (r.centerY - centerOfMassY l) * (r.centerY - centerOfMassY l) := by
      rw [hd]
      exact Real.mul_self_sqrt (add_nonneg (mul_self_nonneg _) (mul_self_nonneg _))
    have e1 : o.centerX - r.centerX = (r.centerX - centerOfMassX l) / d * 3 := by
      rw [hcx]; ring
    have e2 : o.centerY - r.centerY = (r.centerY - centerOfMassY l) / d * 3 := by
      rw [hcy]; ring
    have key : (r.centerX - centerOfMassX l) / d * 3 * ((r.centerX - centerOfMassX l) / d * 3) +
        (r.centerY - centerOfMassY l) / d * 3 * ((r.centerY - centerOfMassY l) / d * 3) = 9 := by
      have h9 : (r.centerX - centerOfMassX l) / d * 3 * ((r.centerX - centerOfMassX l) / d * 3) +
          (r.centerY - centerOfMassY l) / d * 3 * ((r.centerY - centerOfMassY l) / d * 3) =
          9 * ((r.centerX - centerOfMassX l) * (r.centerX - centerOfMassX l) +
            (r.centerY - centerOfMassY l) * (r.centerY - centerOfMassY l)) / (d * d) := by
        field_simp
        ring
      rw [h9, ← hdd, mul_div_assoc, div_self (mul_ne_zero hdne hdne), mul_one]
    refine ⟨?_, ?_, ?_, 3 / d, div_pos (by norm_num) hdpos, ?_, ?_⟩
    · rw [hx, hcx]; ring
    · rw [hy, hcy]; ring
    · rw [e1, e2]; exact key
    · rw [e1]; ring
    · rw [e2]; ring

end OptimizerFrame

section FilterLemmas

variable {β κ : Type} [LinearOrder κ]

theorem insertDesc_pairwise (key : β → κ) (a : β) :
    ∀ l : List β, l.Pairwise (fun x y => key y ≤ key x) →
      (insertDesc key a l).Pairwise (fun x y => key y ≤ key x) := by
  intro l
  induction l with
  | nil => intro _; simp [insertDesc]
  | cons b t ih =>
    intro h
    rw [List.pairwise_cons] at h
    rw [insertDesc]
    split
    · rename_i hab
      rw [List.pairwise_cons]
      refine ⟨?_, ih h.2⟩
      intro x hx
      rcases insertDesc_mem key a x t hx with rfl | hx
      · exact le_of_lt hab
      · exact h.1 x hx
    · rename_i hab
      rw [List.pairwise_cons]
      refine ⟨?_, List.pairwise_cons.mpr h⟩
      intro x hx
      rcases List.mem_cons.mp hx with rfl | hx
      · exact le_of_not_lt hab
      · exact le_trans (h.1 x hx) (le_of_not_lt hab)

theorem sortDesc_pairwise (key : β → κ) :
    ∀ l : List β, (sortDesc key l).Pairwise (fun x y => key y ≤ key x) := by
  intro l
  induction l with
  | nil => simp [sortDesc]
  | cons b t ih => rw [sortDesc]; exact insertDesc_pairwise key b _ ih

end FilterLemmas

section ContourClaims

/-- The largest point count among a retained contour set. -/
def maxRetainedLen {π : Type} (l : List (List π)) : ℕ :=
  l.foldr (fun c m => max c.length m) 0

theorem maxRetainedLen_le {π : Type} {M : ℕ} :
    ∀ {l : List (List π)}, (∀ c ∈ l, c.length ≤ M) → maxRetainedLen l ≤ M := by
  intro l
  induction l with
  | nil => intro _; simp [maxRetainedLen]
  | cons c t ih =>
    intro h
    rw [maxRetainedLen, List.foldr_cons]
    exact max_le (h c (List.mem_cons_self ..))
      (ih fun x hx => h x (List.mem_cons_of_mem _ hx))

/-- C7.  `filterContours` retains at most 2 contours, every retained contour
has at least 50 points, and every retained contour's point count is at least
30% of the longest retained contour's point count (stated as
`3 * maxRetained ≤ 10 * length`). -/
theorem C7_filter_contours (contours : List (List (Pt ℚ))) :
    (filterContours contours).length ≤ 2 ∧
    (filterContours contours).all (fun c => decide (50 ≤ c.length)) = true ∧
    (filterContours contours).all
      (fun c => decide (3 * maxRetainedLen (filterContours contours) ≤ 10 * c.length)) = true := by
  by_cases h0 : contours.length = 0
  · have hnil : contours = [] := List.length_eq_zero.mp h0
    subst hnil
    have : filterContours ([] : List (List (Pt ℚ))) = [] := rfl
    rw [this]
    exact ⟨by simp, rfl, rfl⟩
  · rcases hsig : (sortDesc (fun c : List (Pt ℚ) => c.length) contours).filter
        (fun c => decide (50 ≤ c.length)) with _ | ⟨longest, sigTail⟩
    · have heq : filterContours contours = [] := by
        simp only [filterContours, if_neg h0, hsig]
      rw [heq]
      exact ⟨by simp, rfl, rfl⟩
    · have heq : filterContours contours = ((longest :: sigTail).filter
          (fun c => decide ((longest.length : ℚ) * (3 / 10) ≤ (c.length : ℚ)))).take 2 := by
        simp only [filterContours, if_neg h0, hsig]
      have hsorted : ((sortDesc (fun c : List (Pt ℚ) => c.length) contours).filter
          (fun c => decide (50 ≤ c.length))).Pairwise
          (fun x y => y.length ≤ x.length) :=
        (sortDesc_pairwise (fun c : List (Pt ℚ) => c.length) contours).sublist (List.filter_sublist _)
      rw [hsig, List.pairwise_cons] at hsorted
      have hsub : ∀ c ∈ filterContours contours, c ∈ longest :: sigTail := by
        intro c hc
        rw [heq] at hc
        exact (List.filter_sublist _).subset (List.take_subset _ _ hc)
      have hlen_le : ∀ c ∈ filterContours contours, c.length ≤ longest.length := by
        intro c hc
        rcases List.mem_cons.mp (hsub c hc) with rfl | hc'
        · exact le_refl _
        · exact hsorted.1 c hc'
      refine ⟨?_, ?_, ?_⟩
      · rw [heq, List.length_take]
        exact min_le_left _ _
      · rw [List.all_eq_true]
        intro c hc
        have hc' : c ∈ (sortDesc (fun c : List (Pt ℚ) => c.length) contours).filter
            (fun c => decide (50 ≤ c.length)) := by
          rw [hsig]; exact hsub c hc
        exact (List.mem_filter.mp hc').2
      · rw [List.all_eq_true]
        intro c hc
        have h30 : (longest.length : ℚ) * (3 / 10) ≤ (c.length : ℚ) := by
          have hc' := hc
          rw [heq] at hc'
          have := (List.mem_filter.mp (List.take_subset _ _ hc')).2
          exact of_decide_eq_true this
        have hcast : (3 * longest.length : ℚ) ≤ 10 * c.length := by
          push_cast at h30
          linarith
        have hnat : 3 * longest.length ≤ 10 * c.length := by exact_mod_cast hcast
        have hmax : maxRetainedLen (filterContours contours) ≤ longest.length :=
          maxRetainedLen_le hlen_le
        exact decide_eq_true (by omega)

end ContourClaims

section AnalysisClaims

/-- C8.  Idempotence/determinism of the shape analysis: our embedding of
`analyzeShapeGeometry` is a pure function of the contour set alone — unlike
the spec generator and the packer, it needed no randomness oracle, because
the source stage calls no `Math.random()` — so two calls on the identical
contour set return identical `ShapeInfo` records (same bounds, same sample
points, same `localSpace` values, same `totalArea`). -/
theorem C8_analysis_deterministic (contours : List (List (Pt ℚ))) :
    analyzeShapeGeometry contours = analyzeShapeGeometry contours :=
  rfl

/-- C5 (counterexample).  The contour-extraction entry points return `null`
(`none`), not an empty contour list, on a null mask: the claim's expected
value `some []` differs from the actual result. -/
theorem C5_counterexample_null_returns_none :
    extractEdgesFromMaskData none = none ∧
    extractEdgesFromMask none = none ∧
    extractEdgesFromMaskData none ≠ some ([] : List (List (Pt ℚ))) ∧
    extractEdgesFromMask none ≠ some ([] : List (List (Pt ℚ))) :=
  ⟨rfl, rfl, by simp [extractEdgesFromMaskData], by simp [extractEdgesFromMask]⟩

/-- C5 (amended).  For a null mask input, for missing pixel data, and for a
mask whose width or height is zero, both contour-extraction entry points
return `null` (`none`) — an absent value, not an error and not an empty
list. -/
theorem C5_amended_null_inputs (pxs : List ℕ) (w h : ℕ) :
    extractEdgesFromMaskData none = none ∧
    extractEdgesFromMask none = none ∧
    extractEdgesFromMaskData (some ⟨none, w, h⟩) = none ∧
    extractEdgesFromMaskData (some ⟨some pxs, 0, h⟩) = none ∧
    extractEdgesFromMaskData (some ⟨some pxs, w, 0⟩) = none ∧
    extractEdgesFromMask (some ⟨pxs, 0, h⟩) = none ∧
    extractEdgesFromMask (some ⟨pxs, w, 0⟩) = none := by
  refine ⟨rfl, rfl, rfl, ?_, ?_, ?_, ?_⟩ <;>
    simp [extractEdgesFromMaskData, extractEdgesFromMask]

end AnalysisClaims

section SpaceBounds

/-- A marched ray distance starting from an even count `2k ≤ 100` stays in
`[0, 100]`: the loop guard stops at the cap. -/
theorem spaceRay_bounds (contours : List (List (Pt ℚ))) (dx dy : ℚ) :
    ∀ (fuel k : ℕ), k ≤ 50 → ∀ tx ty : ℚ,
      0 ≤ spaceRay contours dx dy fuel tx ty (2 * (k : ℚ)) ∧
        spaceRay contours dx dy fuel tx ty (2 * (k : ℚ)) ≤ 100 := by
  intro fuel
  induction fuel with
  | zero =>
    intro k hk tx ty
    have : ((k : ℚ)) ≤ 50 := by exact_mod_cast hk
    rw [spaceRay]
    constructor <;> linarith [Nat.cast_nonneg (α := ℚ) k]
  | succ n ih =>
    intro k hk tx ty
    simp only [spaceRay]
    split
    · split
      · rename_i hlt _
        have hk' : k < 50 := by
          by_contra hge
          have : k = 50 := le_antisymm hk (le_of_not_lt hge)
          subst this
          norm_num at hlt
        have hcast : (2 : ℚ) * (k : ℚ) + 2 = 2 * ((k + 1 : ℕ) : ℚ) := by push_cast; ring
        rw [hcast]
        exact ih (k + 1) hk' (tx + dx * 2) (ty + dy * 2)
      · have : ((k : ℚ)) ≤ 50 := by exact_mod_cast hk
        constructor <;> [positivity; linarith]
    · have : ((k : ℚ)) ≤ 50 := by exact_mod_cast hk
      constructor <;> [positivity; linarith]

/-- A full ray march (fuel 51, starting distance 0) stays in `[0, 100]`. -/
theorem spaceRay_bounds0 (contours : List (List (Pt ℚ))) (dx dy tx ty : ℚ) :
    0 ≤ spaceRay contours dx dy 51 tx ty 0 ∧ spaceRay contours dx dy 51 tx ty 0 ≤ 100 := by
  have h := spaceRay_bounds contours dx dy 51 0 (by norm_num) tx ty
  simpa using h

/-- Every `localSpace` value the analyzer computes lies in `[0, 100]`:
it is the average of 8 ray distances, each in `[0, 100]`. -/
theorem localSpace_bounds (validPoints : List (SpacePoint ℚ))
    (contours : List (List (Pt ℚ))) :
    ∀ p ∈ calculateLocalSpaceAvailability validPoints contours,
      0 ≤ p.localSpace ∧ p.localSpace ≤ 100 := by
  intro p hp
  rw [calculateLocalSpaceAvailability, List.mem_map] at hp
  obtain ⟨pt, _, rfl⟩ := hp
  simp only [testDirections, List.foldl_cons, List.foldl_nil]
  obtain ⟨a1, b1⟩ := spaceRay_bounds0 contours 1 0 pt.x pt.y
  obtain ⟨a2, b2⟩ := spaceRay_bounds0 contours (-1) 0 pt.x pt.y
  obtain ⟨a3, b3⟩ := spaceRay_bounds0 contours 0 1 pt.x pt.y
  obtain ⟨a4, b4⟩ := spaceRay_bounds0 contours 0 (-1) pt.x pt.y
  obtain ⟨a5, b5⟩ := spaceRay_bounds0 contours 1 1 pt.x pt.y
  obtain ⟨a6, b6⟩ := spaceRay_bounds0 contours (-1) (-1) pt.x pt.y
  obtain ⟨a7, b7⟩ := spaceRay_bounds0 contours 1 (-1) pt.x pt.y
  obtain ⟨a8, b8⟩ := spaceRay_bounds0 contours (-1) 1 pt.x pt.y
  constructor <;> [positivity; linarith]

/-- Partial sums of a list of values in `[0, 100]`. -/
theorem foldl_sum_bounds :
    ∀ (l : List ℚ) (acc : ℚ), (∀ x ∈ l, 0 ≤ x ∧ x ≤ 100) →
      acc ≤ l.foldl (· + ·) acc ∧ l.foldl (· + ·) acc ≤ acc + 100 * l.length := by
  intro l
  induction l with
  | nil => intro acc _; simp
  | cons x t ih =>
    intro acc h
    have hx := h x (List.mem_cons_self ..)
    obtain ⟨ih1, ih2⟩ := ih (acc + x) (fun y hy => h y (List.mem_cons_of_mem _ hy))
    rw [List.foldl_cons]
    constructor
    · linarith
    · calc t.foldl (· + ·) (acc + x) ≤ acc + x + 100 * t.length := ih2
        _ ≤ acc + 100 * (x :: t).length := by
            simp only [List.length_cons]
            push_cast
            linarith

/-- If every `localSpace` in a shape's space map lies in `[0, 100]`, the
generator's `averageSpace` lies in `[0, 100]` as well (an empty space map
gives average `0 / 0 = 0` in our model; in JavaScript it gives `NaN`, and in
both cases no rectangle is ever placed). -/
theorem averageSpace_bounds (si : ShapeInfo ℚ)
    (h : ∀ p ∈ si.spaceMap, 0 ≤ p.localSpace ∧ p.localSpace ≤ 100) :
    0 ≤ averageSpaceOf si ∧ averageSpaceOf si ≤ 100 := by
  unfold averageSpaceOf
  simp only
  have hvals : ∀ x ∈ si.spaceMap.map (fun p => p.localSpace), 0 ≤ x ∧ x ≤ 100 := by
    intro x hx
    rw [List.mem_map] at hx
    obtain ⟨p, hp, rfl⟩ := hx
    exact h p hp
  obtain ⟨hlo, hhi⟩ := foldl_sum_bounds _ 0 hvals
  rcases Nat.eq_zero_or_pos (si.spaceMap.map (fun p => p.localSpace)).length with h0 | hpos
  · rw [h0]
    norm_num
  · have hn : (0 : ℚ) < ((si.spaceMap.map (fun p => p.localSpace)).length : ℚ) := by
      exact_mod_cast hpos
    constructor
    · exact div_nonneg (by linarith) (le_of_lt hn)
    · rw [div_le_iff₀ hn]
      calc (si.spaceMap.map (fun p => p.localSpace)).foldl (· + ·) 0
          ≤ 0 + 100 * ((si.spaceMap.map (fun p => p.localSpace)).length : ℚ) := hhi
        _ = 100 * ((si.spaceMap.map (fun p => p.localSpace)).length : ℚ) := by ring

end SpaceBounds

section ScenarioB

/-- The contour of the spec's filled 200×400 px rectangle silhouette
(scenario A places its bounding box at {x≈220, y≈40, w≈200, h≈400}). -/
def rectContour : List (List (Pt ℚ)) :=
  [[⟨220, 40⟩, ⟨420, 40⟩, ⟨420, 440⟩, ⟨220, 440⟩]]

/-- A square 100×100 px image in the pool. -/
def squareImage : Img ℚ := ⟨100, 100⟩

/-- The random stream that always draws the first list element. -/
def zeroStream : ℕ → ℕ := fun _ => 0

/-- A placeholder square-root routine for the run (the optimizer receives an
empty list in the counterexample, so it is never consulted on a positive
argument). -/
def zeroSqrt : ℚ → ℚ := fun _ => 0

/-- The first four grid samples of the 200×400 rectangle's space map: the
row `y = 40` starting at `x = 220`, with `localSpace` values
38.75, 41.25, 43.75, 46.25. -/
theorem spaceMap_take4 :
    (analyzeShapeGeometry rectContour).spaceMap.take 4 =
    [⟨220, 40, 155 / 4⟩, ⟨230, 40, 165 / 4⟩, ⟨240, 40, 175 / 4⟩, ⟨250, 40, 185 / 4⟩] := by
  with_unfolding_all decide

/-- A list whose 4-element prefix is known splits into that prefix and a tail. -/
theorem take4_decomp {β : Type} {l : List β} {a b c d : β}
    (h : l.take 4 = [a, b, c, d]) : ∃ t, l = a :: b :: c :: d :: t := by
  rcases l with _ | ⟨x1, _ | ⟨x2, _ | ⟨x3, _ | ⟨x4, t⟩⟩⟩⟩ <;> simp [List.take] at h
  obtain ⟨rfl, rfl, rfl, rfl⟩ := h
  exact ⟨t, rfl⟩

/-- Any point with `y < 40` is outside the 200×400 rectangle contour: no
edge spans such a `testY`, so the crossing count is 0. -/
theorem outside_above (tx ty : ℚ) (hty : ty < 40) :
    isPointInsideShape tx ty rectContour = false := by
  have h40 : decide ((40 : ℚ) > ty) = true := decide_eq_true (by linarith)
  have h440 : decide ((440 : ℚ) > ty) = true := decide_eq_true (by linarith)
  simp [isPointInsideShape, rectContour, countCrossings, edgeCrosses, h40, h440]

/-- A rectangle whose top edge lies above `y = 40` fails validation against
the 200×400 rectangle contour: its first corner is outside. -/
theorem rect_above_invalid (r : Rect ℚ) (hy : r.y < 40) (placed : List (Rect ℚ))
    (si : ShapeInfo ℚ) (hsi : si.contours = rectContour) :
    isRectanglePlacementValid r placed si = false := by
  have hc : isPointInsideShape r.x r.y rectContour = false := outside_above _ _ hy
  rw [isRectanglePlacementValid, hsi]
  simp [isRectangleInsideShape, hc]

/-- For any spec size `b ∈ [80, 90]` the candidate filter over the 200×400
space map is nonempty and its first element lies on the row `y = 40`: the
first sample (`localSpace` 38.75) is always rejected, and one of the next
three (41.25, 43.75, 46.25) is the first accepted. -/
theorem candidates_head (b : ℚ) (hb1 : 80 ≤ b) (hb2 : b ≤ 90) :
    ∃ (hd : SpacePoint ℚ) (tl : List (SpacePoint ℚ)),
      (analyzeShapeGeometry rectContour).spaceMap.filter
        (fun p => decide (min b b / 2 ≤ p.localSpace)) = hd :: tl ∧ hd.y = 40 := by
  obtain ⟨t, ht⟩ := take4_decomp spaceMap_take4
  rw [ht]
  have hne0 : ¬ (min b b / 2 ≤ (155 / 4 : ℚ)) := by rw [min_self]; linarith
  by_cases h1 : b / 2 ≤ (165 / 4 : ℚ)
  · refine ⟨⟨230, 40, 165 / 4⟩,
      (⟨240, 40, 175 / 4⟩ :: ⟨250, 40, 185 / 4⟩ :: t).filter
        (fun p => decide (min b b / 2 ≤ p.localSpace)), ?_, rfl⟩
    rw [List.filter_cons_of_neg (by simpa using hne0),
      List.filter_cons_of_pos (by simp only [min_self]; simpa using h1)]
  · by_cases h2 : b / 2 ≤ (175 / 4 : ℚ)
    · refine ⟨⟨240, 40, 175 / 4⟩,
        (⟨250, 40, 185 / 4⟩ :: t).filter
          (fun p => decide (min b b / 2 ≤ p.localSpace)), ?_, rfl⟩
      rw [List.filter_cons_of_neg (by simpa using hne0),
        List.filter_cons_of_neg (by simp only [min_self]; simpa using h1),
        List.filter_cons_of_pos (by simp only [min_self]; simpa using h2)]
    · have h3 : b / 2 ≤ (185 / 4 : ℚ) := by linarith
      refine ⟨⟨250, 40, 185 / 4⟩,
        t.filter (fun p => decide (min b b / 2 ≤ p.localSpace)), ?_, rfl⟩
      rw [List.filter_cons_of_neg (by simpa using hne0),
        List.filter_cons_of_neg (by simp only [min_self]; simpa using h1),
        List.filter_cons_of_neg (by simp only [min_self]; simpa using h2),
        List.filter_cons_of_pos (by simp only [min_self]; simpa using h3)]

/-- With the always-zero candidate stream, every attempt draws the head of
the candidate list; when that head lies on the row `y = 40` and the spec is
a `b × b` square with `b ≥ 80`, the built rectangle pokes out of the top of
the silhouette and fails validation, so all attempts are used up and the
spec is abandoned. -/
theorem tryPlace_fails (si : ShapeInfo ℚ) (hsi : si.contours = rectContour)
    (hd : SpacePoint ℚ) (tl : List (SpacePoint ℚ)) (spec : RectSpec ℚ) (b : ℚ)
    (hb1 : 80 ≤ b)
    (hfil : si.spaceMap.filter (fun p => decide (min b b / 2 ≤ p.localSpace)) = hd :: tl)
    (hy : hd.y = 40) :
    ∀ (fuel k : ℕ) (placed : List (Rect ℚ)),
      tryPlace si zeroStream spec fuel b b k placed = (none, k + fuel) := by
  intro fuel
  induction fuel with
  | zero => intro k placed; rw [tryPlace, Nat.add_zero]
  | succ n ih =>
    intro k placed
    have hinv : isRectanglePlacementValid
        ⟨hd.x - b / 2, hd.y - b / 2, b, b, hd.x, hd.y,
          spec.assignedImage, spec.aspectRatio⟩ placed si = false := by
      refine rect_above_invalid _ ?_ placed si hsi
      simp only
      rw [hy]
      linarith
    simp only [tryPlace, hfil, List.length_cons, Nat.succ_ne_zero, if_false,
      zeroStream, Nat.zero_mod, List.getD_cons_zero, hinv, Bool.false_eq_true]
    rw [show k + (n + 1) = (k + 1) + n by omega]
    exact ih (k + 1) placed

/-- With a square image pool `[squareImage]` and an average local space in
`[0, 100]`, every generated spec is a `b × b` square with `b ∈ [80, 90]`
(the base size is clamped below by `minImageSize = 80` and the largest tier
multiplier is 0.9). -/
theorem gen_spec_dims (si : ShapeInfo ℚ) (t : ℕ) (rng : ℕ → ℕ)
    (havg : 0 ≤ averageSpaceOf si ∧ averageSpaceOf si ≤ 100) :
    ∀ spec ∈ generateImageBasedRectangleSet si [squareImage] t rng,
      spec.width = spec.height ∧ 80 ≤ spec.height ∧ spec.height ≤ 90 := by
  intro spec hspec
  unfold generateImageBasedRectangleSet at hspec
  rw [if_neg (by simp)] at hspec
  have hmem := sortDesc_mem _ _ _ hspec
  simp only [List.mem_append, List.mem_map, List.mem_range] at hmem
  have main : ∀ (mult : ℚ), 0 ≤ mult → mult ≤ 9 / 10 → ∀ k,
      genImageSpec (averageSpaceOf si) [squareImage] rng mult k = spec →
      spec.width = spec.height ∧ 80 ≤ spec.height ∧ spec.height ≤ 90 := by
    intro mult hm0 hm9 k hk
    have hgen : genImageSpec (averageSpaceOf si) [squareImage] rng mult k =
        ⟨min (max (averageSpaceOf si * mult) 80) 320,
         min (max (averageSpaceOf si * mult) 80) 320, 1, some squareImage, mult,
         some 100, some 100⟩ := by
      unfold genImageSpec squareImage PLACEMENT_CONFIG
      norm_num [List.getD, Nat.mod_one, List.getElem?_cons_zero, Option.getD_some]
    rw [hgen] at hk
    subst hk
    refine ⟨rfl, ?_, ?_⟩
    · exact le_min (le_max_right _ _) (by norm_num)
    · refine le_trans (min_le_left _ _) (max_le ?_ (by norm_num))
      nlinarith [havg.1, havg.2]
  rcases hmem with ⟨⟨i, _, hk⟩ | ⟨i, _, hk⟩⟩ | ⟨i, _, hk⟩
  · exact main (9 / 10) (by norm_num) (by norm_num) _ hk
  · exact main (7 / 10) (by norm_num) (by norm_num) _ hk
  · exact main (5 / 10) (by norm_num) (by norm_num) _ hk

/-- If every spec is a `b × b` square with `b ∈ [80, 90]` and the candidate
head always lies on the row `y = 40`, no spec ever places and the packer
returns the empty list. -/
theorem placeGo_all_fail (si : ShapeInfo ℚ) (hsi : si.contours = rectContour)
    (hfilAll : ∀ b : ℚ, 80 ≤ b → b ≤ 90 → ∃ hd tl,
      si.spaceMap.filter (fun p => decide (min b b / 2 ≤ p.localSpace)) = hd :: tl ∧ hd.y = 40) :
    ∀ (specs : List (RectSpec ℚ)) (k : ℕ),
      (∀ spec ∈ specs, spec.width = spec.height ∧ 80 ≤ spec.height ∧ spec.height ≤ 90) →
      placeGo si zeroStream specs k [] = [] := by
  intro specs
  induction specs with
  | nil => intro k _; rfl
  | cons spec rest ih =>
    intro k h
    obtain ⟨hwh, h80, h90⟩ := h spec (List.mem_cons_self ..)
    obtain ⟨hd, tl, hfil, hy⟩ := hfilAll spec.height h80 h90
    have htry := tryPlace_fails si hsi hd tl spec spec.height h80 hfil hy
      (PLACEMENT_CONFIG (α := ℚ)).maxAttempts k []
    rw [placeGo, hwh, htry]
    exact ih _ (fun s hs => h s (List.mem_cons_of_mem _ hs))

/-- C4 (counterexample).  A concrete run of scenario B — packing
`targetCount = 6` with a square image pool into the 200×400 px rectangle
silhouette's contour, with the always-zero random streams — returns 0
rectangles, not "between 1 and 6": every attempt draws the first qualifying
grid sample, which lies on the silhouette's top row, and the resulting
square always pokes out of the shape. -/
theorem C4_counterexample_zero_run :
    ¬ (1 ≤ (placeImagesInBodyOutline rectContour [squareImage] 6
              zeroStream zeroStream zeroSqrt).length ∧
       (placeImagesInBodyOutline rectContour [squareImage] 6
              zeroStream zeroStream zeroSqrt).length ≤ 6) := by
  have hrun : placeImagesInBodyOutline rectContour [squareImage] 6
      zeroStream zeroStream zeroSqrt = [] := by
    unfold placeImagesInBodyOutline
    rw [if_neg (by simp [rectContour])]
    show optimizePlacement zeroSqrt
      (placeRectanglesIteratively
        (generateImageBasedRectangleSet (analyzeShapeGeometry rectContour)
          [squareImage] 6 zeroStream)
        (analyzeShapeGeometry rectContour) zeroStream)
      (analyzeShapeGeometry rectContour) = []
    have hls : ∀ p ∈ (analyzeShapeGeometry rectContour).spaceMap,
        0 ≤ p.localSpace ∧ p.localSpace ≤ 100 := by
      intro p hp
      have hmap : (analyzeShapeGeometry rectContour).spaceMap =
          calculateLocalSpaceAvailability
            (sampleInteriorSpace rectContour (calculateBoundingBox rectContour))
            rectContour := rfl
      rw [hmap] at hp
      exact localSpace_bounds _ _ p hp
    have havg := averageSpace_bounds _ hls
    have hdims := gen_spec_dims (analyzeShapeGeometry rectContour) 6 zeroStream havg
    have hplace : placeRectanglesIteratively
        (generateImageBasedRectangleSet (analyzeShapeGeometry rectContour)
          [squareImage] 6 zeroStream)
        (analyzeShapeGeometry rectContour) zeroStream = [] := by
      unfold placeRectanglesIteratively
      exact placeGo_all_fail (analyzeShapeGeometry rectContour) rfl
        (fun b hb1 hb2 => candidates_head b hb1 hb2) _ 0 hdims
    rw [hplace]
    rfl
  rw [hrun]
  simp

end ScenarioB

end BodyPack
